import Mathlib

/-!
Shallow embedding of `src/sys/fd.rs` (queen-io): the owning file-descriptor
type `FileDesc` and its operations.

Modelling conventions:
* The external `syscall!` primitive (which retries on EINTR and converts a
  `-1` return into the errno) is modelled as an abstract stateful oracle
  `OS σ`: given a state and a syscall description it returns either the
  errno of a failure (`Except.error e`) or the non-negative return value
  (`Except.ok r`), together with the successor state.
* Every operation of `FileDesc` is translated into a Lean function that
  threads the oracle state explicitly and additionally returns the list of
  syscalls it issued, in order (the trace), so that claims about which
  syscalls are issued with which arguments are provable.
* Machine integers: `c_int` values (descriptors, flag words passed around)
  are `Int`; non-negative syscall return values and `usize` lengths are
  `Nat`; the `u64 -> i64` cast in `read_at`/`write_at` is made explicit by
  `u64_to_i64`. Platform constants follow LP64 Linux: `ssize_t` is 64-bit,
  `c_int` 32-bit.
* The process-wide `TRY_CLOEXEC : AtomicBool` is passed in and out of
  `duplicate` explicitly as a `Bool`.
-/

/-- A syscall issued by the module, with the arguments the code passes.
Pointer arguments carry no information in the model; the length/count and
offset arguments are recorded exactly as the code computes them. -/
inductive Syscall where
  | read (fd : Int) (len : Nat)
  | readv (fd : Int) (iovcnt : Int)
  | pread64 (fd : Int) (len : Nat) (offset : Int)
  | write (fd : Int) (len : Nat)
  | writev (fd : Int) (iovcnt : Int)
  | pwrite64 (fd : Int) (len : Nat) (offset : Int)
  | fcntl_getfd (fd : Int)
  | fcntl_setfd (fd : Int) (flags : Nat)
  | fcntl_dupfd_cloexec (fd : Int) (arg : Nat)
  | fcntl_dupfd (fd : Int) (arg : Nat)
  | ioctl_fionbio (fd : Int) (v : Int)
  | close (fd : Int)
deriving DecidableEq, Repr

/-- The syscall oracle: the environment's response to each syscall, as seen
through the `syscall!` wrapper (`Except.error e` is a failure with errno
`e`; `Except.ok r` is a non-negative return value `r`). -/
structure OS (σ : Type) where
  step : σ → Syscall → Except Nat Nat × σ

/-- `libc::EINVAL` on Linux. -/
def EINVAL : Nat := 22

/-- `libc::FD_CLOEXEC`. -/
def FD_CLOEXEC : Nat := 1

/-- `pub fn max_len() -> usize { <ssize_t>::max_value() as usize }`
(LP64: `ssize_t` is `i64`). -/
def max_len : Nat := 2 ^ 63 - 1

/-- `c_int::max_value() as usize` — the clamp bound used by the vectored
operations. -/
def c_int_max : Nat := 2 ^ 31 - 1

/-- The `offset as i64` cast in `read_at`/`write_at`: two's-complement
reinterpretation of a `u64` as an `i64`. -/
def u64_to_i64 (x : Nat) : Int :=
  if x < 2 ^ 63 then (x : Int) else (x : Int) - 2 ^ 64

/-- `pub struct FileDesc { fd: c_int }` -/
structure FileDesc where
  fd : Int
deriving DecidableEq, Repr

/-- `FileDesc::new`. -/
def FileDesc.new (fd : Int) : FileDesc := ⟨fd⟩

/-- `FileDesc::raw`. -/
def FileDesc.raw (d : FileDesc) : Int := d.fd

/-- Whether a `Drop` obligation is still attached to a `FileDesc` value:
`closeOnDrop` is the normal state, `forgotten` models `mem::forget` having
been called (the destructor is disabled). -/
inductive Teardown where
  | closeOnDrop
  | forgotten
deriving DecidableEq, Repr

/-- `FileDesc::into_raw`: returns the wrapped descriptor and (via
`mem::forget(self)`) disables the value's destructor. -/
def FileDesc.into_raw (d : FileDesc) : Int × Teardown :=
  (d.fd, Teardown.forgotten)

/-- `impl Drop for FileDesc`: `let _ = syscall!(close(self.fd));` — one
close call, result discarded (the return type has no error channel). -/
def FileDesc.drop {σ : Type} (os : OS σ) (d : FileDesc) (s : σ) :
    σ × List Syscall :=
  let (_, s') := os.step s (Syscall.close d.fd)
  (s', [Syscall.close d.fd])

/-- End-of-scope glue: Rust runs `Drop::drop` on a value unless it was
passed to `mem::forget`. -/
def destroy {σ : Type} (os : OS σ) (fd : Int) (td : Teardown) (s : σ) :
    σ × List Syscall :=
  match td with
  | Teardown.closeOnDrop => FileDesc.drop os (FileDesc.new fd) s
  | Teardown.forgotten => (s, [])

/-- `FileDesc::read` with a buffer of length `bufLen`. -/
def FileDesc.read {σ : Type} (os : OS σ) (d : FileDesc) (bufLen : Nat)
    (s : σ) : Except Nat Nat × σ × List Syscall :=
  let call := Syscall.read d.fd (min bufLen max_len)
  let (r, s') := os.step s call
  (r, s', [call])

/-- `FileDesc::read_vectored` with `bufsLen` buffers. -/
def FileDesc.read_vectored {σ : Type} (os : OS σ) (d : FileDesc)
    (bufsLen : Nat) (s : σ) : Except Nat Nat × σ × List Syscall :=
  let call := Syscall.readv d.fd ((min bufsLen c_int_max : Nat) : Int)
  let (r, s') := os.step s call
  (r, s', [call])

/-- `FileDesc::read_at`. -/
def FileDesc.read_at {σ : Type} (os : OS σ) (d : FileDesc) (bufLen : Nat)
    (offset : Nat) (s : σ) : Except Nat Nat × σ × List Syscall :=
  let call := Syscall.pread64 d.fd (min bufLen max_len) (u64_to_i64 offset)
  let (r, s') := os.step s call
  (r, s', [call])

/-- `FileDesc::write`. -/
def FileDesc.write {σ : Type} (os : OS σ) (d : FileDesc) (bufLen : Nat)
    (s : σ) : Except Nat Nat × σ × List Syscall :=
  let call := Syscall.write d.fd (min bufLen max_len)
  let (r, s') := os.step s call
  (r, s', [call])

/-- `FileDesc::write_vectored`. -/
def FileDesc.write_vectored {σ : Type} (os : OS σ) (d : FileDesc)
    (bufsLen : Nat) (s : σ) : Except Nat Nat × σ × List Syscall :=
  let call := Syscall.writev d.fd ((min bufsLen c_int_max : Nat) : Int)
  let (r, s') := os.step s call
  (r, s', [call])

/-- `FileDesc::write_at`. -/
def FileDesc.write_at {σ : Type} (os : OS σ) (d : FileDesc) (bufLen : Nat)
    (offset : Nat) (s : σ) : Except Nat Nat × σ × List Syscall :=
  let call := Syscall.pwrite64 d.fd (min bufLen max_len) (u64_to_i64 offset)
  let (r, s') := os.step s call
  (r, s', [call])

/-- `FileDesc::get_cloexec`:
`Ok((syscall!(fcntl(self.fd, F_GETFD))? & FD_CLOEXEC) != 0)`. -/
def FileDesc.get_cloexec {σ : Type} (os : OS σ) (d : FileDesc) (s : σ) :
    Except Nat Bool × σ × List Syscall :=
  match os.step s (Syscall.fcntl_getfd d.fd) with
  | (Except.ok flags, s') =>
      (Except.ok ((flags &&& FD_CLOEXEC) != 0), s', [Syscall.fcntl_getfd d.fd])
  | (Except.error e, s') => (Except.error e, s', [Syscall.fcntl_getfd d.fd])

/-- `FileDesc::set_cloexec`: read `F_GETFD`; or the flag in; issue
`F_SETFD` only when the word changed. -/
def FileDesc.set_cloexec {σ : Type} (os : OS σ) (d : FileDesc) (s : σ) :
    Except Nat Unit × σ × List Syscall :=
  match os.step s (Syscall.fcntl_getfd d.fd) with
  | (Except.error e, s') => (Except.error e, s', [Syscall.fcntl_getfd d.fd])
  | (Except.ok previous, s') =>
      let n := previous ||| FD_CLOEXEC
      if n ≠ previous then
        match os.step s' (Syscall.fcntl_setfd d.fd n) with
        | (Except.error e, s'') =>
            (Except.error e, s'',
              [Syscall.fcntl_getfd d.fd, Syscall.fcntl_setfd d.fd n])
        | (Except.ok _, s'') =>
            (Except.ok (), s'',
              [Syscall.fcntl_getfd d.fd, Syscall.fcntl_setfd d.fd n])
      else
        (Except.ok (), s', [Syscall.fcntl_getfd d.fd])

/-- `FileDesc::set_nonblocking`. -/
def FileDesc.set_nonblocking {σ : Type} (os : OS σ) (d : FileDesc)
    (nonblocking : Bool) (s : σ) : Except Nat Unit × σ × List Syscall :=
  let v : Int := if nonblocking then 1 else 0
  match os.step s (Syscall.ioctl_fionbio d.fd v) with
  | (Except.ok _, s') => (Except.ok (), s', [Syscall.ioctl_fionbio d.fd v])
  | (Except.error e, s') => (Except.error e, s', [Syscall.ioctl_fionbio d.fd v])

/-- The `make_filedesc` closure inside `duplicate`:
`let fd = FileDesc::new(fd); fd.set_cloexec()?; Ok(fd)`.
When `set_cloexec` fails, the `?` returns early and the temporary
`FileDesc` is dropped, which issues (and discards) a `close` on the
freshly duplicated descriptor. -/
def make_filedesc {σ : Type} (os : OS σ) (newfd : Nat) (s : σ) :
    Except Nat FileDesc × σ × List Syscall :=
  let d := FileDesc.new (newfd : Int)
  match FileDesc.set_cloexec os d s with
  | (Except.ok _, s', t) => (Except.ok d, s', t)
  | (Except.error e, s', t) =>
      let (s'', tdrop) := FileDesc.drop os d s'
      (Except.error e, s'', t ++ tdrop)

/-- The final line of `duplicate`:
`syscall!(fcntl(fd, F_DUPFD, 0)).and_then(make_filedesc)`. -/
def dup_fallback {σ : Type} (os : OS σ) (fd : Int) (s : σ) :
    Except Nat FileDesc × σ × List Syscall :=
  match os.step s (Syscall.fcntl_dupfd fd 0) with
  | (Except.ok newfd, s') =>
      let (r, s'', t) := make_filedesc os newfd s'
      (r, s'', Syscall.fcntl_dupfd fd 0 :: t)
  | (Except.error e, s') => (Except.error e, s', [Syscall.fcntl_dupfd fd 0])

/-- `static TRY_CLOEXEC: AtomicBool = AtomicBool::new(true);` — the initial
value of the process-wide capability flag. -/
def TRY_CLOEXEC_init : Bool := true

/-- `FileDesc::duplicate`. Takes the current value of `TRY_CLOEXEC` and
returns (result, updated `TRY_CLOEXEC`, oracle state, trace). -/
def FileDesc.duplicate {σ : Type} (os : OS σ) (d : FileDesc) (tc : Bool)
    (s : σ) : Except Nat FileDesc × Bool × σ × List Syscall :=
  let fd := d.raw
  if tc then
    match os.step s (Syscall.fcntl_dupfd_cloexec fd 0) with
    | (Except.ok newfd, s') =>
        let (r, s'', t) := make_filedesc os newfd s'
        (r, tc, s'', Syscall.fcntl_dupfd_cloexec fd 0 :: t)
    | (Except.error e, s') =>
        if e = EINVAL then
          let (r, s'', t) := dup_fallback os fd s'
          (r, false, s'', Syscall.fcntl_dupfd_cloexec fd 0 :: t)
        else
          (Except.error e, tc, s', [Syscall.fcntl_dupfd_cloexec fd 0])
  else
    let (r, s', t) := dup_fallback os fd s
    (r, tc, s', t)

/-- `flush` in `impl Write for &FileDesc`: `Ok(())`, no syscall. -/
def FileDesc.flush {σ : Type} (os : OS σ) (d : FileDesc) (s : σ) :
    Except Nat Unit × σ × List Syscall :=
  (Except.ok (), s, [])

/-- Runs `duplicate` once per descriptor in the list, threading the
capability flag and the oracle state; collects each call's trace. -/
def dupSeq {σ : Type} (os : OS σ) : Bool → σ → List FileDesc →
    List (List Syscall)
  | _, _, [] => []
  | tc, s, d :: rest =>
      let (_, tc', s', t) := FileDesc.duplicate os d tc s
      t :: dupSeq os tc' s' rest

/-- Number of syscalls in a trace satisfying `p`. -/
def countSyscall (p : Syscall → Bool) (t : List Syscall) : Nat :=
  t.countP p

def isDupfd : Syscall → Bool
  | Syscall.fcntl_dupfd _ _ => true
  | _ => false

def isAtomicDup : Syscall → Bool
  | Syscall.fcntl_dupfd_cloexec _ _ => true
  | _ => false

def isSetfd : Syscall → Bool
  | Syscall.fcntl_setfd _ _ => true
  | _ => false

def isClose : Syscall → Bool
  | Syscall.close _ => true
  | _ => false

/-- A scripted oracle for concrete runs: the state is the list of pending
responses, each syscall pops the next one (an exhausted script answers
`ok 0`). -/
def scriptOS : OS (List (Except Nat Nat)) where
  step s _ :=
    match s with
    | [] => (Except.ok 0, [])
    | r :: rest => (r, rest)

/-- A flags-tracking mock oracle: the state maps each descriptor to its
`F_GETFD` flag word; `F_SETFD` stores, `F_GETFD` loads, everything else
answers `ok 0` and leaves the flags alone. -/
def flagsOS : OS (Int → Nat) where
  step s c :=
    match c with
    | Syscall.fcntl_getfd fd => (Except.ok (s fd), s)
    | Syscall.fcntl_setfd fd v => (Except.ok 0, fun x => if x = fd then v else s x)
    | _ => (Except.ok 0, s)

/-! ## Helper lemmas -/

theorem lor_one_and_one (x : Nat) : (x ||| 1) &&& 1 = 1 := by
  rw [Nat.and_distrib_right]
  rcases Nat.mod_two_eq_zero_or_one x with h | h <;>
    simp [Nat.and_one_is_mod, h]

theorem lor_one_eq_self_iff (x : Nat) : x ||| 1 = x ↔ x &&& 1 ≠ 0 := by
  constructor
  · intro h
    have := lor_one_and_one x
    rw [h] at this
    omega
  · intro h
    have hx : x % 2 = 1 := by
      rw [Nat.and_one_is_mod] at h
      omega
    apply Nat.eq_of_testBit_eq
    intro i
    rw [Nat.testBit_or]
    cases i with
    | zero => simp [hx]
    | succ n =>
        have h1 : (1 : Nat).testBit (n + 1) = false :=
          Nat.testBit_lt_two_pow (Nat.one_lt_two_pow (by omega))
        simp [h1]

theorem set_cloexec_trace_shape {σ : Type} (os : OS σ) (d : FileDesc)
    (s : σ) :
    (FileDesc.set_cloexec os d s).2.2 = [Syscall.fcntl_getfd d.fd] ∨
    ∃ n, (FileDesc.set_cloexec os d s).2.2 =
      [Syscall.fcntl_getfd d.fd, Syscall.fcntl_setfd d.fd n] := by
  unfold FileDesc.set_cloexec
  rcases h : os.step s (Syscall.fcntl_getfd d.fd) with ⟨r, s'⟩
  cases r with
  | error e => simp
  | ok previous =>
      by_cases hc : previous ||| FD_CLOEXEC ≠ previous
      · rcases h2 : os.step s'
            (Syscall.fcntl_setfd d.fd (previous ||| FD_CLOEXEC)) with ⟨r2, s''⟩
        cases r2 <;> simp [hc, h2]
      · simp [hc]

/-! ## Claim theorems -/

/-- C10: the `flush` of `impl Write for &FileDesc` always returns success,
issues no syscall and leaves the oracle state untouched, for every
descriptor and every state. -/
theorem flush_no_syscall {σ : Type} (os : OS σ) (d : FileDesc) (s : σ) :
    FileDesc.flush os d s = (Except.ok (), s, ([] : List Syscall)) := rfl

/-- C7: in `read`, `write`, `read_at` and `write_at`, the length handed to
the syscall is exactly `min (buffer length) max_len`, where `max_len` is
the maximum value of `ssize_t`, so as a signed value the count is
non-negative and below `2 ^ 63`. -/
theorem io_len_clamped {σ : Type} (os : OS σ) (d : FileDesc)
    (bufLen offset : Nat) (s : σ) :
    (FileDesc.read os d bufLen s).2.2 =
      [Syscall.read d.fd (min bufLen max_len)] ∧
    (FileDesc.write os d bufLen s).2.2 =
      [Syscall.write d.fd (min bufLen max_len)] ∧
    (FileDesc.read_at os d bufLen offset s).2.2 =
      [Syscall.pread64 d.fd (min bufLen max_len) (u64_to_i64 offset)] ∧
    (FileDesc.write_at os d bufLen offset s).2.2 =
      [Syscall.pwrite64 d.fd (min bufLen max_len) (u64_to_i64 offset)] ∧
    max_len = 2 ^ 63 - 1 ∧
    0 ≤ ((min bufLen max_len : Nat) : Int) ∧
    ((min bufLen max_len : Nat) : Int) < 2 ^ 63 := by
  refine ⟨rfl, rfl, rfl, rfl, rfl, by positivity, ?_⟩
  have h : min bufLen max_len ≤ 2 ^ 63 - 1 := Nat.min_le_right bufLen max_len
  have h2 : ((min bufLen max_len : Nat) : Int) ≤ ((2 ^ 63 - 1 : Nat) : Int) :=
    Int.ofNat_le.mpr h
  calc ((min bufLen max_len : Nat) : Int) ≤ ((2 ^ 63 - 1 : Nat) : Int) := h2
    _ < 2 ^ 63 := by norm_num

/-- C8: in `read_vectored` and `write_vectored` the buffer count handed to
the syscall is exactly `min (number of buffers) (c_int maximum)`, hence
never exceeds `2 ^ 31 - 1`. -/
theorem vectored_count_clamped {σ : Type} (os : OS σ) (d : FileDesc)
    (bufsLen : Nat) (s : σ) :
    (FileDesc.read_vectored os d bufsLen s).2.2 =
      [Syscall.readv d.fd ((min bufsLen c_int_max : Nat) : Int)] ∧
    (FileDesc.write_vectored os d bufsLen s).2.2 =
      [Syscall.writev d.fd ((min bufsLen c_int_max : Nat) : Int)] ∧
    c_int_max = 2 ^ 31 - 1 ∧
    min bufsLen c_int_max ≤ 2 ^ 31 - 1 :=
  ⟨rfl, rfl, rfl, Nat.min_le_right bufsLen c_int_max⟩

/-- C9: for an offset in `[2^63, 2^64)`, the `offset as i64` cast in
`read_at`/`write_at` passes the negative two's-complement reinterpretation
`offset - 2^64` to the positional syscall, not the offset itself. -/
theorem positional_offset_wrapping_cast {σ : Type} (os : OS σ)
    (d : FileDesc) (bufLen offset : Nat) (s : σ)
    (h1 : 2 ^ 63 ≤ offset) (h2 : offset < 2 ^ 64) :
    u64_to_i64 offset = (offset : Int) - 2 ^ 64 ∧
    u64_to_i64 offset < 0 ∧
    (FileDesc.read_at os d bufLen offset s).2.2 =
      [Syscall.pread64 d.fd (min bufLen max_len) ((offset : Int) - 2 ^ 64)] ∧
    (FileDesc.write_at os d bufLen offset s).2.2 =
      [Syscall.pwrite64 d.fd (min bufLen max_len) ((offset : Int) - 2 ^ 64)] := by
  have hc : u64_to_i64 offset = (offset : Int) - 2 ^ 64 := by
    unfold u64_to_i64
    rw [if_neg (Nat.not_lt.mpr h1)]
  have hneg : u64_to_i64 offset < 0 := by
    rw [hc]
    have : (offset : Int) < ((2 ^ 64 : Nat) : Int) := Int.ofNat_lt.mpr h2
    omega
  exact ⟨hc, hneg, by rw [← hc]; rfl, by rw [← hc]; rfl⟩

/-- C9 witness: at offset `2 ^ 63` the cast passed to the syscall is
negative. -/
theorem positional_offset_wrapping_cast_w : u64_to_i64 (2 ^ 63) < 0 :=
  (positional_offset_wrapping_cast scriptOS ⟨3⟩ 0 (2 ^ 63) []
    (by norm_num) (by norm_num)).2.1

/-- C4: dropping a `FileDesc` issues exactly one `close` syscall on its
descriptor, and the outcome of `drop` does not depend on the close call's
result: two oracles whose close responses only differ in the
result value (same successor state) produce identical `drop` outcomes. -/
theorem drop_single_close_discards_result {σ : Type} (os os₂ : OS σ)
    (d : FileDesc) (s : σ)
    (h : (os₂.step s (Syscall.close d.fd)).2 = (os.step s (Syscall.close d.fd)).2) :
    (FileDesc.drop os d s).2 = [Syscall.close d.fd] ∧
    countSyscall isClose (FileDesc.drop os d s).2 = 1 ∧
    FileDesc.drop os₂ d s = FileDesc.drop os d s := by
  refine ⟨rfl, by simp [countSyscall, FileDesc.drop, isClose], ?_⟩
  unfold FileDesc.drop
  rcases h1 : os.step s (Syscall.close d.fd) with ⟨r1, s1⟩
  rcases h2 : os₂.step s (Syscall.close d.fd) with ⟨r2, s2⟩
  rw [h1, h2] at h
  simp at h
  simp [h]

/-- C4 witness: with a scripted oracle that reports a failing close, the
trace is still the single close call. -/
theorem drop_single_close_discards_result_w :
    (FileDesc.drop scriptOS ⟨3⟩ [Except.error 9]).2 = [Syscall.close 3] :=
  (drop_single_close_discards_result scriptOS scriptOS ⟨3⟩
    [Except.error 9] rfl).1

/-- C5: `into_raw` returns exactly the wrapped descriptor and marks the
value as forgotten, so the end-of-scope glue issues no syscall at all for
it — in particular no close. -/
theorem into_raw_disables_close {σ : Type} (os : OS σ) (d : FileDesc)
    (s : σ) :
    (FileDesc.into_raw d).1 = d.fd ∧
    (FileDesc.into_raw d).2 = Teardown.forgotten ∧
    destroy os (FileDesc.into_raw d).1 (FileDesc.into_raw d).2 s = (s, []) ∧
    countSyscall isClose
      (destroy os (FileDesc.into_raw d).1 (FileDesc.into_raw d).2 s).2 = 0 :=
  ⟨rfl, rfl, rfl, rfl⟩

theorem lor_one_idem (x : Nat) : (x ||| 1) ||| 1 = x ||| 1 := by
  rw [Nat.or_assoc, Nat.or_self]

theorem set_cloexec_flagsOS (d : FileDesc) (flags : Int → Nat) :
    FileDesc.set_cloexec flagsOS d flags =
      if flags d.fd ||| FD_CLOEXEC ≠ flags d.fd then
        (Except.ok (),
          fun x => if x = d.fd then flags d.fd ||| FD_CLOEXEC else flags x,
          [Syscall.fcntl_getfd d.fd,
           Syscall.fcntl_setfd d.fd (flags d.fd ||| FD_CLOEXEC)])
      else (Except.ok (), flags, [Syscall.fcntl_getfd d.fd]) := by
  by_cases h : flags d.fd ||| FD_CLOEXEC = flags d.fd <;>
    simp [FileDesc.set_cloexec, flagsOS, h]

/-- C6: `set_cloexec` always reads the flags first, and (for any oracle)
issues the mutating `F_SETFD` call exactly when the close-on-exec bit is
not already set in the flags it read; on the flags-tracking mock, two
consecutive `set_cloexec` calls issue at most one mutating call in total,
the call succeeds, and `get_cloexec` afterwards returns `true`. -/
theorem set_cloexec_idempotent {σ : Type} (os : OS σ) (d : FileDesc)
    (s : σ) (flags : Int → Nat) :
    ((FileDesc.set_cloexec os d s).2.2).head? =
      some (Syscall.fcntl_getfd d.fd) ∧
    (∀ prev s', os.step s (Syscall.fcntl_getfd d.fd) = (Except.ok prev, s') →
      countSyscall isSetfd (FileDesc.set_cloexec os d s).2.2 =
        if prev &&& FD_CLOEXEC = 0 then 1 else 0) ∧
    countSyscall isSetfd ((FileDesc.set_cloexec flagsOS d flags).2.2 ++
      (FileDesc.set_cloexec flagsOS d
        (FileDesc.set_cloexec flagsOS d flags).2.1).2.2) ≤ 1 ∧
    (FileDesc.set_cloexec flagsOS d flags).1 = Except.ok () ∧
    (FileDesc.get_cloexec flagsOS d
      (FileDesc.set_cloexec flagsOS d flags).2.1).1 = Except.ok true := by
  refine ⟨?_, ?_, ?_, ?_, ?_⟩
  · rcases set_cloexec_trace_shape os d s with h | ⟨n, h⟩ <;> rw [h] <;> rfl
  · intro prev s' hstep
    unfold FileDesc.set_cloexec
    rw [hstep]
    by_cases hb : prev &&& FD_CLOEXEC = 0
    · have hne : prev ||| FD_CLOEXEC ≠ prev := by
        simp only [FD_CLOEXEC] at *
        intro hcontra
        exact absurd hb (by simpa using (lor_one_eq_self_iff prev).mp hcontra)
      rcases h2 : os.step s' (Syscall.fcntl_setfd d.fd (prev ||| FD_CLOEXEC))
        with ⟨r2, s''⟩
      cases r2 <;> simp [hne, h2, hb, countSyscall, isSetfd]
    · have heq : prev ||| FD_CLOEXEC = prev := by
        simp only [FD_CLOEXEC] at *
        exact (lor_one_eq_self_iff prev).mpr hb
      simp [heq, hb, countSyscall, isSetfd]
  · rw [set_cloexec_flagsOS]
    by_cases h : flags d.fd ||| FD_CLOEXEC = flags d.fd
    · simp only [h, ne_eq, not_true_eq_false, if_false]
      rw [set_cloexec_flagsOS]
      simp [h, countSyscall, isSetfd]
    · simp only [ne_eq, h, not_false_eq_true, if_true]
      rw [set_cloexec_flagsOS]
      have hidem : (flags d.fd ||| FD_CLOEXEC) ||| FD_CLOEXEC =
          flags d.fd ||| FD_CLOEXEC := by
        simp only [FD_CLOEXEC]
        exact lor_one_idem (flags d.fd)
      simp [hidem, countSyscall, isSetfd]
  · rw [set_cloexec_flagsOS]
    by_cases h : flags d.fd ||| FD_CLOEXEC = flags d.fd <;> simp [h]
  · rw [set_cloexec_flagsOS]
    by_cases h : flags d.fd ||| FD_CLOEXEC = flags d.fd
    · simp only [h, ne_eq, not_true_eq_false, if_false]
      have hb : flags d.fd &&& FD_CLOEXEC ≠ 0 := by
        simp only [FD_CLOEXEC] at *
        exact (lor_one_eq_self_iff (flags d.fd)).mp h
      simp [FileDesc.get_cloexec, flagsOS, hb]
    · simp only [ne_eq, h, not_false_eq_true, if_true]
      have hb : (flags d.fd ||| FD_CLOEXEC) &&& FD_CLOEXEC = 1 := by
        simp only [FD_CLOEXEC]
        exact lor_one_and_one (flags d.fd)
      simp [FileDesc.get_cloexec, flagsOS, hb]

/-- C6 witness: on the flags mock with all flag words zero, two calls on
descriptor 3 issue at most one `F_SETFD` in total; on a script whose
`F_GETFD` answers 0, the one mutating call is issued. -/
theorem set_cloexec_idempotent_w :
    countSyscall isSetfd
      ((FileDesc.set_cloexec flagsOS ⟨3⟩ (fun _ => 0)).2.2 ++
       (FileDesc.set_cloexec flagsOS ⟨3⟩
         (FileDesc.set_cloexec flagsOS ⟨3⟩ (fun _ => 0)).2.1).2.2) ≤ 1 ∧
    countSyscall isSetfd
      (FileDesc.set_cloexec scriptOS ⟨3⟩ [Except.ok 0, Except.ok 0]).2.2 =
      if 0 &&& FD_CLOEXEC = 0 then 1 else 0 :=
  ⟨(set_cloexec_idempotent scriptOS ⟨3⟩ [] (fun _ => 0)).2.2.1,
   (set_cloexec_idempotent scriptOS ⟨3⟩ [Except.ok 0, Except.ok 0]
      (fun _ => 0)).2.1 0 [Except.ok 0] rfl⟩

theorem FileDesc.new_fd (x : Int) : (FileDesc.new x).fd = x := rfl

theorem make_filedesc_trace_ok {σ : Type} (os : OS σ) (newfd : Nat)
    (s : σ)
    (h : (FileDesc.set_cloexec os (FileDesc.new (newfd : Int)) s).1 =
      Except.ok ()) :
    (make_filedesc os newfd s).2.2 =
      (FileDesc.set_cloexec os (FileDesc.new (newfd : Int)) s).2.2 := by
  unfold make_filedesc
  rcases hsc : FileDesc.set_cloexec os (FileDesc.new (newfd : Int)) s
    with ⟨r, st⟩
  cases r with
  | ok u => simp [hsc]
  | error e =>
      rw [hsc] at h
      simp at h

theorem make_filedesc_trace_err {σ : Type} (os : OS σ) (newfd : Nat)
    (s : σ) (e : Nat)
    (h : (FileDesc.set_cloexec os (FileDesc.new (newfd : Int)) s).1 =
      Except.error e) :
    (make_filedesc os newfd s).2.2 =
      (FileDesc.set_cloexec os (FileDesc.new (newfd : Int)) s).2.2 ++
        [Syscall.close (newfd : Int)] := by
  unfold make_filedesc
  rcases hsc : FileDesc.set_cloexec os (FileDesc.new (newfd : Int)) s
    with ⟨r, st⟩
  cases r with
  | ok u =>
      rw [hsc] at h
      simp at h
  | error e2 => simp [hsc, FileDesc.drop, FileDesc.new_fd]

theorem make_filedesc_trace_cases {σ : Type} (os : OS σ) (newfd : Nat)
    (s : σ) :
    (make_filedesc os newfd s).2.2 =
      (FileDesc.set_cloexec os (FileDesc.new (newfd : Int)) s).2.2 ∨
    (make_filedesc os newfd s).2.2 =
      (FileDesc.set_cloexec os (FileDesc.new (newfd : Int)) s).2.2 ++
        [Syscall.close (newfd : Int)] := by
  cases hsc : (FileDesc.set_cloexec os (FileDesc.new (newfd : Int)) s).1 with
  | error e => exact Or.inr (make_filedesc_trace_err os newfd s e hsc)
  | ok u => exact Or.inl (make_filedesc_trace_ok os newfd s (by rw [hsc]))

theorem set_cloexec_trace_counts {σ : Type} (os : OS σ) (d : FileDesc)
    (s : σ) :
    countSyscall isDupfd (FileDesc.set_cloexec os d s).2.2 = 0 ∧
    countSyscall isAtomicDup (FileDesc.set_cloexec os d s).2.2 = 0 := by
  rcases set_cloexec_trace_shape os d s with h | ⟨n, h⟩ <;> rw [h] <;>
    simp [countSyscall, isDupfd, isAtomicDup]

theorem dup_fallback_props {σ : Type} (os : OS σ) (fd : Int) (s : σ) :
    countSyscall isDupfd (dup_fallback os fd s).2.2 = 1 ∧
    countSyscall isAtomicDup (dup_fallback os fd s).2.2 = 0 ∧
    (∀ newfd s₂,
      os.step s (Syscall.fcntl_dupfd fd 0) = (Except.ok newfd, s₂) →
      ((FileDesc.set_cloexec os (FileDesc.new (newfd : Int)) s₂).1 =
          Except.ok () →
        (dup_fallback os fd s).2.2 =
          Syscall.fcntl_dupfd fd 0 ::
            (FileDesc.set_cloexec os (FileDesc.new (newfd : Int)) s₂).2.2) ∧
      (∀ e, (FileDesc.set_cloexec os (FileDesc.new (newfd : Int)) s₂).1 =
          Except.error e →
        (dup_fallback os fd s).2.2 =
          Syscall.fcntl_dupfd fd 0 ::
            ((FileDesc.set_cloexec os (FileDesc.new (newfd : Int)) s₂).2.2 ++
              [Syscall.close (newfd : Int)]))) := by
  rcases h : os.step s (Syscall.fcntl_dupfd fd 0) with ⟨r, s'⟩
  cases r with
  | error e =>
      refine ⟨?_, ?_, ?_⟩
      · simp [dup_fallback, h, countSyscall, isDupfd]
      · simp [dup_fallback, h, countSyscall, isAtomicDup]
      · intro newfd s₂ h2
        simp at h2
  | ok newfd =>
      have htr : (dup_fallback os fd s).2.2 =
          Syscall.fcntl_dupfd fd 0 :: (make_filedesc os newfd s').2.2 := by
        unfold dup_fallback
        rw [h]
      have hc1 := (set_cloexec_trace_counts os (FileDesc.new (newfd : Int)) s').1
      have hc2 := (set_cloexec_trace_counts os (FileDesc.new (newfd : Int)) s').2
      refine ⟨?_, ?_, ?_⟩
      · rw [htr]
        simp only [countSyscall] at hc1 ⊢
        rcases make_filedesc_trace_cases os newfd s' with hmt | hmt <;> rw [hmt]
        · simp [List.countP_cons, isDupfd, hc1]
        · simp [List.countP_cons, List.countP_append, isDupfd, hc1]
      · rw [htr]
        simp only [countSyscall] at hc2 ⊢
        rcases make_filedesc_trace_cases os newfd s' with hmt | hmt <;> rw [hmt]
        · simp [List.countP_cons, isAtomicDup, hc2]
        · simp [List.countP_cons, List.countP_append, isAtomicDup, hc2]
      · intro newfd2 s₂ h2
        simp only [Prod.mk.injEq, Except.ok.injEq] at h2
        obtain ⟨h3, h4⟩ := h2
        subst h3
        subst h4
        constructor
        · intro hok
          rw [htr, make_filedesc_trace_ok os newfd s' hok]
        · intro e herr
          rw [htr, make_filedesc_trace_err os newfd s' e herr]

theorem duplicate_false_eq {σ : Type} (os : OS σ) (d : FileDesc) (s : σ) :
    FileDesc.duplicate os d false s =
      ((dup_fallback os d.raw s).1, false, (dup_fallback os d.raw s).2.1,
        (dup_fallback os d.raw s).2.2) := by
  unfold FileDesc.duplicate
  rcases hf : dup_fallback os d.raw s with ⟨r, s', t⟩
  simp [hf]

theorem dupSeq_false_no_atomic {σ : Type} (os : OS σ) :
    ∀ (ds : List FileDesc) (s : σ) (t : List Syscall),
      t ∈ dupSeq os false s ds → countSyscall isAtomicDup t = 0 := by
  intro ds
  induction ds with
  | nil =>
      intro s t ht
      simp [dupSeq] at ht
  | cons d rest ih =>
      intro s t ht
      rw [dupSeq, duplicate_false_eq os d s] at ht
      simp only [List.mem_cons] at ht
      rcases ht with h | h
      · rw [h]
        exact (dup_fallback_props os d.raw s).2.1
      · exact ih _ _ h

theorem make_filedesc_result {σ : Type} (os : OS σ) (newfd : Nat) (s : σ) :
    ((FileDesc.set_cloexec os (FileDesc.new (newfd : Int)) s).1 =
        Except.ok () →
      (make_filedesc os newfd s).1 = Except.ok (FileDesc.new (newfd : Int))) ∧
    (∀ e, (FileDesc.set_cloexec os (FileDesc.new (newfd : Int)) s).1 =
        Except.error e →
      (make_filedesc os newfd s).1 = Except.error e) := by
  unfold make_filedesc
  rcases hsc : FileDesc.set_cloexec os (FileDesc.new (newfd : Int)) s
    with ⟨r, st⟩
  cases r <;> simp [hsc, FileDesc.drop]

theorem duplicate_true_ok {σ : Type} (os : OS σ) (d : FileDesc) (s s' : σ)
    (newfd : Nat)
    (h : os.step s (Syscall.fcntl_dupfd_cloexec d.raw 0) =
      (Except.ok newfd, s')) :
    FileDesc.duplicate os d true s =
      ((make_filedesc os newfd s').1, true, (make_filedesc os newfd s').2.1,
        Syscall.fcntl_dupfd_cloexec d.raw 0 ::
          (make_filedesc os newfd s').2.2) := by
  simp only [FileDesc.duplicate]
  rw [h]
  rcases hm : make_filedesc os newfd s' with ⟨r2, st2⟩
  simp [hm]

theorem duplicate_true_einval {σ : Type} (os : OS σ) (d : FileDesc)
    (s s' : σ)
    (h : os.step s (Syscall.fcntl_dupfd_cloexec d.raw 0) =
      (Except.error EINVAL, s')) :
    FileDesc.duplicate os d true s =
      ((dup_fallback os d.raw s').1, false, (dup_fallback os d.raw s').2.1,
        Syscall.fcntl_dupfd_cloexec d.raw 0 ::
          (dup_fallback os d.raw s').2.2) := by
  simp only [FileDesc.duplicate]
  rw [h]
  rcases hf : dup_fallback os d.raw s' with ⟨r2, st2⟩
  simp [hf]

theorem duplicate_true_err {σ : Type} (os : OS σ) (d : FileDesc) (s s' : σ)
    (e : Nat) (hne : e ≠ EINVAL)
    (h : os.step s (Syscall.fcntl_dupfd_cloexec d.raw 0) =
      (Except.error e, s')) :
    FileDesc.duplicate os d true s =
      (Except.error e, true, s', [Syscall.fcntl_dupfd_cloexec d.raw 0]) := by
  simp only [FileDesc.duplicate]
  rw [h]
  simp [hne]

/-- C1: when the atomic `F_DUPFD_CLOEXEC` attempt fails with `EINVAL`,
`duplicate` does not surface that error: it stores `false` into the
capability flag and runs the fallback — whose trace contains exactly one
plain `F_DUPFD` call which, on success, is followed by the explicit
`set_cloexec` on the result (plus the drop-close of the temporary
descriptor when that `set_cloexec` itself fails); when the atomic attempt
fails with any other error, that error is returned, the flag is
untouched, and the trace is the single atomic call (no fallback
duplication). -/
theorem duplicate_einval_fallback {σ : Type} (os : OS σ) (d : FileDesc)
    (s : σ) :
    (∀ s', os.step s (Syscall.fcntl_dupfd_cloexec d.raw 0) =
        (Except.error EINVAL, s') →
      FileDesc.duplicate os d true s =
        ((dup_fallback os d.raw s').1, false,
          (dup_fallback os d.raw s').2.1,
          Syscall.fcntl_dupfd_cloexec d.raw 0 ::
            (dup_fallback os d.raw s').2.2) ∧
      countSyscall isDupfd (dup_fallback os d.raw s').2.2 = 1 ∧
      (∀ newfd s₂,
        os.step s' (Syscall.fcntl_dupfd d.raw 0) = (Except.ok newfd, s₂) →
        ((FileDesc.set_cloexec os (FileDesc.new (newfd : Int)) s₂).1 =
            Except.ok () →
          (dup_fallback os d.raw s').2.2 =
            Syscall.fcntl_dupfd d.raw 0 ::
              (FileDesc.set_cloexec os (FileDesc.new (newfd : Int)) s₂).2.2) ∧
        (∀ e, (FileDesc.set_cloexec os (FileDesc.new (newfd : Int)) s₂).1 =
            Except.error e →
          (dup_fallback os d.raw s').2.2 =
            Syscall.fcntl_dupfd d.raw 0 ::
              ((FileDesc.set_cloexec os
                  (FileDesc.new (newfd : Int)) s₂).2.2 ++
                [Syscall.close (newfd : Int)])))) ∧
    (∀ e s', e ≠ EINVAL →
      os.step s (Syscall.fcntl_dupfd_cloexec d.raw 0) =
        (Except.error e, s') →
      FileDesc.duplicate os d true s =
        (Except.error e, true, s', [Syscall.fcntl_dupfd_cloexec d.raw 0]) ∧
      countSyscall isDupfd (FileDesc.duplicate os d true s).2.2.2 = 0) := by
  constructor
  · intro s' h
    exact ⟨duplicate_true_einval os d s s' h,
      (dup_fallback_props os d.raw s').1,
      (dup_fallback_props os d.raw s').2.2⟩
  · intro e s' hne h
    have hd := duplicate_true_err os d s s' e hne h
    refine ⟨hd, ?_⟩
    rw [hd]
    simp [countSyscall, isDupfd]

/-- C1 witness: with `EINVAL` scripted for the atomic attempt, the flag
comes back `false` and the fallback trace is the plain dup followed by
`set_cloexec` on the result; with `EBADF` (9) scripted, the error is
returned as-is with only the atomic call in the trace. -/
theorem duplicate_einval_fallback_w :
    (FileDesc.duplicate scriptOS ⟨3⟩ true
      [Except.error EINVAL, Except.ok 5, Except.ok 0, Except.ok 1]).2.1 =
      false ∧
    (dup_fallback scriptOS 3 [Except.ok 5, Except.ok 0, Except.ok 1]).2.2 =
      Syscall.fcntl_dupfd 3 0 ::
        (FileDesc.set_cloexec scriptOS (FileDesc.new ((5 : Nat) : Int))
          [Except.ok 0, Except.ok 1]).2.2 ∧
    FileDesc.duplicate scriptOS ⟨3⟩ true [Except.error 9] =
      (Except.error 9, true, ([] : List (Except Nat Nat)),
        [Syscall.fcntl_dupfd_cloexec 3 0]) := by
  refine ⟨?_, ?_, ?_⟩
  · have h := (duplicate_einval_fallback scriptOS ⟨3⟩
      [Except.error EINVAL, Except.ok 5, Except.ok 0, Except.ok 1]).1
      [Except.ok 5, Except.ok 0, Except.ok 1] rfl
    rw [h.1]
  · exact (((duplicate_einval_fallback scriptOS ⟨3⟩
      [Except.error EINVAL, Except.ok 5, Except.ok 0, Except.ok 1]).1
      [Except.ok 5, Except.ok 0, Except.ok 1] rfl).2.2
      5 [Except.ok 0, Except.ok 1] rfl).1 rfl
  · exact ((duplicate_einval_fallback scriptOS ⟨3⟩ [Except.error 9]).2
      9 [] (by decide) rfl).1

/-- C2: when the atomic `F_DUPFD_CLOEXEC` attempt succeeds with a new
descriptor, `duplicate` still runs the explicit `set_cloexec` on that
descriptor before returning: when `set_cloexec` succeeds the trace is the
atomic call followed by the `set_cloexec` trace (which starts by reading
the new descriptor's flags), when `set_cloexec` fails the trace
additionally ends with the drop-close of the temporary descriptor; the
new descriptor is returned exactly when `set_cloexec` succeeded, and the
capability flag stays `true`. -/
theorem duplicate_atomic_success_sets_cloexec {σ : Type} (os : OS σ)
    (d : FileDesc) (s s' : σ) (newfd : Nat)
    (h : os.step s (Syscall.fcntl_dupfd_cloexec d.raw 0) =
      (Except.ok newfd, s')) :
    ((FileDesc.set_cloexec os (FileDesc.new (newfd : Int)) s').1 =
        Except.ok () →
      (FileDesc.duplicate os d true s).2.2.2 =
        Syscall.fcntl_dupfd_cloexec d.raw 0 ::
          (FileDesc.set_cloexec os (FileDesc.new (newfd : Int)) s').2.2) ∧
    (∀ e, (FileDesc.set_cloexec os (FileDesc.new (newfd : Int)) s').1 =
        Except.error e →
      (FileDesc.duplicate os d true s).2.2.2 =
        Syscall.fcntl_dupfd_cloexec d.raw 0 ::
          ((FileDesc.set_cloexec os (FileDesc.new (newfd : Int)) s').2.2 ++
            [Syscall.close (newfd : Int)])) ∧
    ((FileDesc.set_cloexec os (FileDesc.new (newfd : Int)) s').2.2).head? =
      some (Syscall.fcntl_getfd (newfd : Int)) ∧
    ((FileDesc.set_cloexec os (FileDesc.new (newfd : Int)) s').1 =
        Except.ok () →
      (FileDesc.duplicate os d true s).1 =
        Except.ok (FileDesc.new (newfd : Int))) ∧
    (∀ e, (FileDesc.set_cloexec os (FileDesc.new (newfd : Int)) s').1 =
        Except.error e →
      (FileDesc.duplicate os d true s).1 = Except.error e) ∧
    (FileDesc.duplicate os d true s).2.1 = true := by
  have hd := duplicate_true_ok os d s s' newfd h
  refine ⟨?_, ?_, ?_, ?_, ?_, ?_⟩
  · intro hok
    rw [hd]
    simp [make_filedesc_trace_ok os newfd s' hok]
  · intro e herr
    rw [hd]
    simp [make_filedesc_trace_err os newfd s' e herr]
  · rcases set_cloexec_trace_shape os (FileDesc.new (newfd : Int)) s'
      with ht | ⟨n, ht⟩ <;> rw [ht] <;> rfl
  · intro hok
    rw [hd]
    simpa using (make_filedesc_result os newfd s').1 hok
  · intro e herr
    rw [hd]
    simpa using (make_filedesc_result os newfd s').2 e herr
  · rw [hd]

/-- C2 witness: atomic success returning descriptor 7 followed by a
scripted `F_GETFD`/`F_SETFD` gives the atomic call plus the `set_cloexec`
trace; with `F_GETFD` scripted to fail, the trace additionally ends with
the drop-close of descriptor 7. -/
theorem duplicate_atomic_success_sets_cloexec_w :
    (FileDesc.duplicate scriptOS ⟨3⟩ true
      [Except.ok 7, Except.ok 0, Except.ok 1]).2.2.2 =
      Syscall.fcntl_dupfd_cloexec 3 0 ::
        (FileDesc.set_cloexec scriptOS (FileDesc.new ((7 : Nat) : Int))
          [Except.ok 0, Except.ok 1]).2.2 ∧
    (FileDesc.duplicate scriptOS ⟨3⟩ true
      [Except.ok 7, Except.error 9]).2.2.2 =
      Syscall.fcntl_dupfd_cloexec 3 0 ::
        ((FileDesc.set_cloexec scriptOS (FileDesc.new ((7 : Nat) : Int))
          [Except.error 9]).2.2 ++ [Syscall.close ((7 : Nat) : Int)]) :=
  ⟨(duplicate_atomic_success_sets_cloexec scriptOS ⟨3⟩
      [Except.ok 7, Except.ok 0, Except.ok 1] [Except.ok 0, Except.ok 1] 7
      rfl).1 rfl,
   (duplicate_atomic_success_sets_cloexec scriptOS ⟨3⟩
      [Except.ok 7, Except.error 9] [Except.error 9] 7
      rfl).2.1 9 rfl⟩

/-- C3: the capability flag starts `true`; no `duplicate` call ever turns
it from `false` back to `true`; a call entered with the flag `false` is
exactly the fallback path and issues no atomic call; and across any
sequence of `duplicate` calls entered with the flag `false`, no trace
contains the atomic syscall. -/
theorem try_cloexec_monotone :
    TRY_CLOEXEC_init = true ∧
    (∀ (σ : Type) (os : OS σ) (d : FileDesc) (tc : Bool) (s : σ),
      (FileDesc.duplicate os d tc s).2.1 = true → tc = true) ∧
    (∀ (σ : Type) (os : OS σ) (d : FileDesc) (s : σ),
      FileDesc.duplicate os d false s =
        ((dup_fallback os d.raw s).1, false, (dup_fallback os d.raw s).2.1,
          (dup_fallback os d.raw s).2.2) ∧
      countSyscall isAtomicDup (FileDesc.duplicate os d false s).2.2.2 = 0) ∧
    (∀ (σ : Type) (os : OS σ) (s : σ) (ds : List FileDesc),
      ∀ t ∈ dupSeq os false s ds, countSyscall isAtomicDup t = 0) := by
  refine ⟨rfl, ?_, ?_, ?_⟩
  · intro σ os d tc s h
    cases tc
    · rw [duplicate_false_eq] at h
      simp at h
    · rfl
  · intro σ os d s
    refine ⟨duplicate_false_eq os d s, ?_⟩
    rw [duplicate_false_eq]
    exact (dup_fallback_props os d.raw s).2.1
  · intro σ os s ds t ht
    exact dupSeq_false_no_atomic os ds s t ht

/-- C3 witness: a successful atomic call leaves the flag `true`, and a
run with the flag off issues no atomic call. -/
theorem try_cloexec_monotone_w :
    (true = true) ∧
    countSyscall isAtomicDup
      [Syscall.fcntl_dupfd 3 0, Syscall.fcntl_getfd 0,
        Syscall.fcntl_setfd 0 1] = 0 :=
  ⟨try_cloexec_monotone.2.1 (List (Except Nat Nat)) scriptOS ⟨3⟩ true
      [Except.ok 7] (by decide),
    try_cloexec_monotone.2.2.2 (List (Except Nat Nat)) scriptOS [] [⟨3⟩] _
      (by decide)⟩
